import Mathlib

/-!
Shallow embedding of the GPR point-cloud / mesh pipeline (gpr2.21.py).

Coordinates and amplitudes are modelled as exact rationals (ℚ); the numpy and
pandas numeric kernels the source leans on (quantile, qcut, linspace, min, max,
mean, sample) are translated from their documented semantics at the call sites
used by the source; the scattered-data interpolation (scipy griddata) and the
Gaussian smoothing filter are abstracted as oracles, since the claims concern
only the fill / fallback policy wrapped around them and the shape of the data
they produce.
-/

deriving instance DecidableEq for Except

namespace GPR

/-- One survey point: position plus signal amplitude (src: columns x, y, z, amp
extracted at 1065-1073). -/
structure Point where
  x : ℚ
  y : ℚ
  z : ℚ
  amp : ℚ
deriving DecidableEq, Inhabited

/-- numpy-style minimum of a nonempty array (src: `.min()`); 0 on the empty list. -/
def listMin : List ℚ → ℚ
  | [] => 0
  | a :: l => l.foldl min a

/-- numpy-style maximum of a nonempty array (src: `.max()`); 0 on the empty list. -/
def listMax : List ℚ → ℚ
  | [] => 0
  | a :: l => l.foldl max a

/-- pandas-style mean (src: `.mean()`); sum divided by length. -/
def mean (l : List ℚ) : ℚ := l.sum / l.length

/-- Insert a value into an ascending sorted list. -/
def insertSorted (a : ℚ) : List ℚ → List ℚ
  | [] => [a]
  | b :: l => if a ≤ b then a :: b :: l else b :: insertSorted a l

/-- Ascending insertion sort, modelling the sort inside quantile estimation. -/
def sortQ (l : List ℚ) : List ℚ := l.foldr insertSorted []

/-- pandas `Series.quantile(p)` with the default linear interpolation
(src 1099 and the qcut bin edges at 1158): position `h = p * (n - 1)` on the
ascending sorted values, result `s[i] + (h - i) * (s[i+1] - s[i])` where
`i = ⌊h⌋`, taking `s[i]` itself when `i + 1` is out of range. -/
def quantileLinear (l : List ℚ) (p : ℚ) : ℚ :=
  let s := sortQ l
  match s with
  | [] => 0
  | _ =>
    let n : ℕ := s.length
    let h : ℚ := p * ((n : ℚ) - 1)
    let i : ℕ := (⌊h⌋).toNat
    let g : ℚ := h - (⌊h⌋ : ℚ)
    let a := s.getD i 0
    let b := s.getD (i + 1) a
    a + g * (b - a)

/-! ### Coordinate normalization (src 1080-1095) -/

/-- src 1080-1095: depth inversion, optional centering of x and y by their
means, then the unconditional rescale by `10 / max_range` when the larger of
the x- and y-extents exceeds 50. -/
def normalize_coords (invertDepth centerCoordinates : Bool) (pts : List Point) : List Point :=
  let s1 := if invertDepth then pts.map (fun p => { p with z := -|p.z| }) else pts
  let s2 :=
    if centerCoordinates then
      let xc := mean (s1.map (fun p => p.x))
      let yc := mean (s1.map (fun p => p.y))
      s1.map (fun p => { p with x := p.x - xc, y := p.y - yc })
    else s1
  let xs := s2.map (fun p => p.x)
  let ys := s2.map (fun p => p.y)
  let maxRange := max (listMax xs - listMin xs) (listMax ys - listMin ys)
  if 50 < maxRange then
    let sf := 10 / maxRange
    s2.map (fun p => { x := p.x * sf, y := p.y * sf, z := p.z * sf, amp := p.amp })
  else s2

/-! ### Amplitude filter (src 1097-1105) -/

/-- src 1098: the per-point absolute amplitudes. -/
def abs_amp (pts : List Point) : List ℚ := pts.map (fun p => |p.amp|)

/-- src 1099: `threshold = data['abs_amp'].quantile(threshold_percentile)`. -/
def amp_threshold (pts : List Point) (percentile : ℚ) : ℚ :=
  quantileLinear (abs_amp pts) percentile

/-- src 1097-1105: retain the points whose absolute amplitude strictly exceeds
the quantile threshold; an empty retention is the reported error state that
sets the job status to error with the operator guidance message. -/
def filter_by_amplitude (pts : List Point) (percentile : ℚ) : Except String (List Point) :=
  let threshold := amp_threshold pts percentile
  let retained := pts.filter (fun p => decide (threshold < |p.amp|))
  if retained.isEmpty then
    Except.error "No points after filtering! Try lowering the percentile."
  else Except.ok retained

/-! ### Iso-layer binning (src 1157-1194) -/

/-- Bin edges of `pd.qcut(values, q, duplicates='drop')`: the linear-interpolation
quantiles at `0, 1/q, ..., 1`, with duplicate edges dropped (the edge sequence
is nondecreasing, so order-preserving deduplication models `np.unique`). -/
def qcut_edges (l : List ℚ) (q : ℕ) : List ℚ :=
  ((List.range (q + 1)).map (fun (i : ℕ) => quantileLinear l ((i : ℚ) / (q : ℚ)))).dedup

/-- src 1158: `pd.qcut(abs_amp, iso_bins, labels=False, duplicates='drop')`.
Bins are right-closed intervals between consecutive deduplicated edges, with
the lowest edge included in bin 0; a value's integer label is the number of
upper edges strictly below it. (The except branch at 1159-1161 falls back to
`pd.cut` and is reachable only when qcut raises, i.e. when every retained
amplitude is equal so that all edges collapse.) -/
def iso_labels (l : List ℚ) (q : ℕ) : List ℕ :=
  let edges := qcut_edges l q
  l.map (fun v => (edges.drop 1).countP (fun e => decide (e < v)))

/-- src 1163: `actual_bins = df_filtered['iso_range'].nunique()`. -/
def actual_bins (l : List ℚ) (q : ℕ) : ℕ := (iso_labels l q).dedup.length

/-- src 1171: the rows of one iso level, `df_filtered[df_filtered['iso_range'] == iso_level]`. -/
def layer_points (pts : List Point) (isoBins lvl : ℕ) : List Point :=
  ((pts.zip (iso_labels (abs_amp pts) isoBins)).filter (fun pl => pl.2 == lvl)).map
    (fun pl => pl.1)

/-- A linear congruential step, the deterministic pseudorandom source of the
sampling model. -/
def lcg_next (s : ℕ) : ℕ := (s * 1103515245 + 12345) % 2147483648

/-- Draw `n` elements without replacement, state-threaded: each step removes the
pseudorandomly chosen element from the pool. -/
def sample_aux {α : Type} : ℕ → ℕ → List α → List α → List α
  | 0, _, _, acc => acc.reverse
  | _ + 1, _, [], acc => acc.reverse
  | n + 1, s, a :: pool, acc =>
    let l := a :: pool
    let i := s % l.length
    sample_aux n (lcg_next s) (l.take i ++ l.drop (i + 1)) (l.getD i a :: acc)

/-- Models `DataFrame.sample(n=..., random_state=seed)` (src 1176): a
deterministic fixed-seed pseudorandom selection of `n` rows without
replacement. The exact Mersenne-Twister stream of numpy is not reproduced; the
model preserves what the source relies on: the selection is a pure function of
the data and the hard-coded seed alone (hence reproducible across runs), has
exactly the requested size when the pool is large enough, and only returns rows
of the pool. -/
def sample {α : Type} (seed : ℕ) (l : List α) (n : ℕ) : List α := sample_aux n seed l []

/-- src 1175-1176: cap a layer at `max_points_per_layer` rows via the fixed-seed
sample with `random_state=42`; smaller layers pass through unchanged. -/
def downsample_layer (l : List Point) (maxPts : ℕ) : List Point :=
  if maxPts < l.length then sample 42 l maxPts else l

/-- src 1170-1194: the layer loop. Levels run over `range(actual_bins)`; empty
levels are skipped with `continue`; oversized levels are downsampled. The
result is the list of point sets written out as PLY layers. -/
def output_layers (pts : List Point) (isoBins maxPts : ℕ) : List (List Point) :=
  (List.range (actual_bins (abs_amp pts) isoBins)).filterMap (fun lvl =>
    let iso := layer_points pts isoBins lvl
    if iso.length = 0 then none
    else some (downsample_layer iso maxPts))

/-- src 1168/1194: `total_output_points`, the sum of the written layer sizes. -/
def total_output_points (pts : List Point) (isoBins maxPts : ℕ) : ℕ :=
  ((output_layers pts isoBins maxPts).map List.length).sum

/-! ### Grid interpolation and mesh assembly (src 103-182) -/

/-- numpy `linspace(a, b, n)` (src 113-114, 194, 198-199): `n` evenly spaced
values from `a` to `b` inclusive. -/
def linspace (a b : ℚ) (n : ℕ) : List ℚ :=
  (List.range n).map (fun (i : ℕ) => a + ((b - a) * (i : ℚ)) / ((n : ℚ) - 1))

/-- The fill-value semantics of `griddata(..., fill_value=c)`: the oracle
reports, per lattice node, either an interpolated value or `none` for a node
outside the convex hull of the inputs, and every `none` becomes the fill value. -/
def griddataFill (nodes : List (Option ℚ)) (fill : ℚ) : List ℚ :=
  nodes.map (fun v => v.getD fill)

/-- src 127-133: the try/except around the two surface `griddata` calls. On
success, elevation nodes outside the hull are filled with `z.mean()` and
amplitude nodes with 0; if either call raises, both grids are replaced by
uniform grids of the respective field means. Grids are row-major flat lists of
length `res * res`. -/
def surface_grids_raw (z amp : List ℚ) (res : ℕ)
    (interpZ interpAmp : Option (List (Option ℚ))) : List ℚ × List ℚ :=
  match interpZ, interpAmp with
  | some zn, some an => (griddataFill zn (mean z), griddataFill an 0)
  | _, _ => (List.replicate (res * res) (mean z), List.replicate (res * res) (mean amp))

/-- src 143-148: min-max normalization of the surface amplitude grid, all-zero
when the grid maximum does not exceed its minimum. -/
def surface_amp_norm (g : List ℚ) : List ℚ :=
  let mn := listMin g
  let mx := listMax g
  if mn < mx then g.map (fun v => (v - mn) / (mx - mn)) else g.map (fun _ => 0)

/-- src 154-158: the surface color ramp, red = normalized amplitude,
green = 0.2, blue = 1 - normalized amplitude. -/
def surface_color (v : ℚ) : ℚ × ℚ × ℚ := (v, 1/5, 1 - v)

/-- Row-major double loop `for i in range(res): for j in range(res)` producing
one triple per lattice node (src 150-159, 231-239). -/
def gridNodes (res : ℕ) (f : ℕ → ℕ → ℚ × ℚ × ℚ) : List (ℚ × ℚ × ℚ) :=
  (List.range res).flatMap (fun i => (List.range res).map (fun j => f i j))

/-- src 164-173 and 241-247: two triangles per grid cell under row-major node
indexing `idx = i * resolution + j`. -/
def gridFaces (resolution : ℕ) : List (ℕ × ℕ × ℕ) :=
  (List.range (resolution - 1)).flatMap (fun i =>
    (List.range (resolution - 1)).flatMap (fun j =>
      let idx := i * resolution + j
      [(idx, idx + 1, idx + resolution),
       (idx + 1, idx + resolution + 1, idx + resolution)]))

/-- A triangulated mesh: vertices, triangle faces, per-vertex colors. -/
structure Mesh where
  vertices : List (ℚ × ℚ × ℚ)
  faces : List (ℕ × ℕ × ℕ)
  colors : List (ℚ × ℚ × ℚ)
deriving DecidableEq, Inhabited

/-- src 103-182: the surface mesh generator over the four data columns, with the
two `griddata` outcomes and the Gaussian smoothing filter abstracted as
oracles. Vertices sit at `(xi[j], yi[i], z_grid[i*res+j])`, colors follow the
surface ramp over the min-max normalized smoothed amplitude grid, faces are the
two-triangles-per-cell lattice. -/
def generate_surface_mesh (x y z amp : List ℚ) (resolution : ℕ)
    (interpZ interpAmp : Option (List (Option ℚ)))
    (gaussian : List ℚ → List ℚ) : Mesh :=
  let xi := linspace (listMin x) (listMax x) resolution
  let yi := linspace (listMin y) (listMax y) resolution
  let raw := surface_grids_raw z amp resolution interpZ interpAmp
  let zg := gaussian raw.1
  let ag := gaussian raw.2
  let ampNorm := surface_amp_norm ag
  { vertices := gridNodes resolution
      (fun i j => (xi.getD j 0, yi.getD i 0, zg.getD (i * resolution + j) 0))
    faces := gridFaces resolution
    colors := gridNodes resolution
      (fun i j => surface_color (ampNorm.getD (i * resolution + j) 0)) }

/-! ### Depth slices (src 184-258) -/

/-- src 193-194: `np.linspace(z_max, z_min, num_slices + 2)[1:-1]`, the target
depths with the top and bottom excluded. -/
def slice_depths (zmin zmax : ℚ) (numSlices : ℕ) : List ℚ :=
  ((linspace zmax zmin (numSlices + 2)).drop 1).dropLast

/-- src 204: `depth_tolerance = (z_max - z_min) / (num_slices * 2)`. -/
def depth_tolerance (zmin zmax : ℚ) (numSlices : ℕ) : ℚ :=
  (zmax - zmin) / ((numSlices : ℚ) * 2)

/-- src 205: the band of points with `|z - depth| < depth_tolerance`. -/
def select_window (pts : List Point) (depth tol : ℚ) : List Point :=
  pts.filter (fun p => decide (|p.z - depth| < tol))

/-- src 214-218: the slice amplitude grid. On interpolation success the
outside-hull nodes are zero-filled and the grid is smoothed; if `griddata`
raises, the bare except replaces the grid with all zeros (unsmoothed). -/
def slice_amp_grid (res : ℕ) (gaussian : List ℚ → List ℚ)
    (interpAmp : Option (List (Option ℚ))) : List ℚ :=
  match interpAmp with
  | some an => gaussian (griddataFill an 0)
  | none => List.replicate (res * res) 0

/-- src 220-225: slice normalization divides by the grid maximum alone
(all-zero when the maximum is not positive). -/
def slice_amp_norm (g : List ℚ) : List ℚ :=
  let mx := listMax g
  if 0 < mx then g.map (fun v => v / mx) else g.map (fun _ => 0)

/-- src 235-239: the slice color ramp, red = normalized amplitude,
green = 0.3 * (1 - normalized amplitude), blue = 1 - normalized amplitude. -/
def slice_color (v : ℚ) : ℚ × ℚ × ℚ := (v, (3/10) * (1 - v), 1 - v)

/-- One depth-slice mesh together with its target depth (src 249-254). -/
structure Slice where
  depth : ℚ
  vertices : List (ℚ × ℚ × ℚ)
  faces : List (ℕ × ℕ × ℕ)
  colors : List (ℚ × ℚ × ℚ)
deriving DecidableEq, Inhabited

/-- src 202-256, one iteration of the slice loop: select the band, skip it when
it holds fewer than 10 points, otherwise build the flat mesh at the target
depth from the (oracle-valued) interpolated amplitude grid. -/
def slice_at (pts : List Point) (xi yi : List ℚ) (res : ℕ)
    (interp : List Point → Option (List (Option ℚ)))
    (gaussian : List ℚ → List ℚ) (tol depth : ℚ) : Option Slice :=
  let sel := select_window pts depth tol
  if sel.length < 10 then none
  else
    let ampNorm := slice_amp_norm (slice_amp_grid res gaussian (interp sel))
    some { depth := depth
           vertices := gridNodes res (fun i j => (xi.getD j 0, yi.getD i 0, depth))
           faces := gridFaces res
           colors := gridNodes res
             (fun i j => slice_color (ampNorm.getD (i * res + j) 0)) }

/-- src 184-258: the depth slice generator. Depth targets, the shared lattice
and the tolerance are computed from the full filtered point set; each depth is
turned into a slice or skipped. -/
def generate_depth_slices (pts : List Point) (numSlices res : ℕ)
    (interp : List Point → Option (List (Option ℚ)))
    (gaussian : List ℚ → List ℚ) : List Slice :=
  let zs := pts.map (fun p => p.z)
  let zmin := listMin zs
  let zmax := listMax zs
  let xs := pts.map (fun p => p.x)
  let ys := pts.map (fun p => p.y)
  let xi := linspace (listMin xs) (listMax xs) res
  let yi := linspace (listMin ys) (listMax ys) res
  let tol := depth_tolerance zmin zmax numSlices
  (slice_depths zmin zmax numSlices).filterMap (slice_at pts xi yi res interp gaussian tol)

/-- Modelled from the spec wording of §4.5 (for comparison with the source):
normalize a grid to [0,1] via `(v - min) / (max - min)`, or all-zero when
`max == min`. -/
def spec_normalize (g : List ℚ) : List ℚ :=
  if listMax g = listMin g then g.map (fun _ => 0)
  else g.map (fun v => (v - listMin g) / (listMax g - listMin g))

/-- Modelled from the spec wording of §4.2 step 1 (for comparison with the
source): if `invertDepth`, replace `z` by `-abs(z)`. -/
def spec_invert_depth (b : Bool) (pts : List Point) : List Point :=
  if b then pts.map (fun p => { p with z := -|p.z| }) else pts

/-- Modelled from the spec wording of §4.2 step 2 (for comparison with the
source): if `centerCoordinates`, subtract the per-axis mean of x and y (not z)
across all surviving points. -/
def spec_center (b : Bool) (pts : List Point) : List Point :=
  if b then
    pts.map (fun p => { p with x := p.x - mean (pts.map (fun q => q.x)),
                               y := p.y - mean (pts.map (fun q => q.y)) })
  else pts

/-- Modelled from the spec wording of §4.2 step 3 (for comparison with the
source): with `range = max(xmax - xmin, ymax - ymin)`, if `range > 50` multiply
x, y and z by `10 / range`, otherwise leave every coordinate unchanged. -/
def spec_rescale (pts : List Point) : List Point :=
  let rng := max (listMax (pts.map (fun p => p.x)) - listMin (pts.map (fun p => p.x)))
                 (listMax (pts.map (fun p => p.y)) - listMin (pts.map (fun p => p.y)))
  if 50 < rng then
    pts.map (fun p =>
      { x := p.x * (10 / rng), y := p.y * (10 / rng), z := p.z * (10 / rng), amp := p.amp })
  else pts

/-! ### Serialization outcomes (src 68-101, 1123-1153, 1170-1194, 1251-1256) -/

/-- Outcome of one file write: success, or an IOError with its message. -/
inductive WriteOutcome
  | ok
  | ioFail (msg : String)
deriving DecidableEq, Inhabited

/-- The IOError message of a failed write, if any. -/
def WriteOutcome.failMsg : WriteOutcome → Option String
  | .ok => none
  | .ioFail m => some m

/-- Final job status, mirroring `processing_jobs[job_id]['status'] / ['message']`. -/
inductive RunStatus
  | completed
  | error (msg : String)
deriving DecidableEq, Inhabited

/-- Names of the slice OBJ files that complete before the first failing write;
a failing write raises out of the surface block, so later slices are never
attempted (src 1144-1150). -/
def slice_files (sliceWrites : List WriteOutcome) : List String :=
  ((sliceWrites.takeWhile (fun w => w == WriteOutcome.ok)).enum).map
    (fun p => "slice_" ++ toString (p.1 + 1) ++ ".obj")

/-- src 1123-1153: the surface-generation block. The whole block sits in an
inner try whose except only prints, so an IOError from `write_obj_mesh` ends
the block early but never escapes: the run keeps the files written so far and
continues. -/
def surface_section_files (genSurface genAmpSurface : Bool) (depthSlices : ℕ)
    (surfaceWrite : WriteOutcome) (sliceWrites : List WriteOutcome) : List String :=
  if genSurface then
    if genAmpSurface then
      match surfaceWrite with
      | .ioFail _ => []
      | .ok =>
        "surface_amplitude.obj" ::
          (if 0 < depthSlices then slice_files sliceWrites else [])
    else if 0 < depthSlices then slice_files sliceWrites else []
  else []

/-- src 1170-1194 with 1251-1256: the layer-writing loop runs under the outer
try of `process_gpr_data` only, so the first IOError from `write_ply_fast`
aborts the run and the outer except reports it in the job status. -/
def run_status (layerWrites : List WriteOutcome) : RunStatus :=
  match layerWrites.findSome? WriteOutcome.failMsg with
  | some m => RunStatus.error ("Error: " ++ m)
  | none => RunStatus.completed

/-- Number of PLY layer files on disk: the writes before the first failure. -/
def layer_files_written (layerWrites : List WriteOutcome) : ℕ :=
  (layerWrites.takeWhile (fun w => w == WriteOutcome.ok)).length

/-- The serialization skeleton of one run of `process_gpr_data` (src 1018-1256):
final status together with the mesh artifacts present when it ends. -/
def process_run (genSurface genAmpSurface : Bool) (depthSlices : ℕ)
    (surfaceWrite : WriteOutcome) (sliceWrites layerWrites : List WriteOutcome) :
    RunStatus × List String :=
  (run_status layerWrites,
   surface_section_files genSurface genAmpSurface depthSlices surfaceWrite sliceWrites)

/-! ## Helper lemmas -/

theorem sample_aux_length {α : Type} :
    ∀ (n s : ℕ) (pool acc : List α),
      (sample_aux n s pool acc).length = min n pool.length + acc.length
  | 0, s, pool, acc => by simp [sample_aux]
  | n + 1, s, [], acc => by simp [sample_aux]
  | n + 1, s, a :: pool, acc => by
    have hi : s % (a :: pool).length < (a :: pool).length :=
      Nat.mod_lt _ (by simp)
    rw [sample_aux]
    rw [sample_aux_length n (lcg_next s) _ _]
    simp only [List.length_append, List.length_take, List.length_drop,
      List.length_cons] at hi ⊢
    omega

theorem sample_aux_mem {α : Type} :
    ∀ (n s : ℕ) (pool acc : List α) (x : α),
      x ∈ sample_aux n s pool acc → x ∈ pool ∨ x ∈ acc
  | 0, s, pool, acc, x => by
    intro hx
    right
    simpa [sample_aux] using hx
  | n + 1, s, [], acc, x => by
    intro hx
    right
    simpa [sample_aux] using hx
  | n + 1, s, a :: pool, acc, x => by
    intro hx
    rw [sample_aux] at hx
    rcases sample_aux_mem n (lcg_next s) _ _ x hx with h | h
    · left
      rcases List.mem_append.mp h with h | h
      · exact List.mem_of_mem_take h
      · exact List.mem_of_mem_drop h
    · rcases List.mem_cons.mp h with h | h
      · left
        have hi : s % (a :: pool).length < (a :: pool).length :=
          Nat.mod_lt _ (by simp)
        rw [h, List.getD_eq_getElem _ _ hi]
        exact List.getElem_mem hi
      · right
        exact h

theorem getD_map_point (f : Point → Point) (pts : List Point) (i : ℕ)
    (hi : i < pts.length) :
    (pts.map f).getD i default = f (pts.getD i default) := by
  rw [List.getD_eq_getElem _ _ (by simpa using hi), List.getElem_map,
    List.getD_eq_getElem _ _ hi]

theorem spec_invert_depth_length (b : Bool) (pts : List Point) :
    (spec_invert_depth b pts).length = pts.length := by
  cases b <;> simp [spec_invert_depth]

theorem spec_center_length (b : Bool) (pts : List Point) :
    (spec_center b pts).length = pts.length := by
  cases b <;> simp [spec_center]

theorem spec_rescale_length (pts : List Point) :
    (spec_rescale pts).length = pts.length := by
  simp only [spec_rescale]
  split <;> simp

theorem gridNodes_length (res : ℕ) (f : ℕ → ℕ → ℚ × ℚ × ℚ) :
    (gridNodes res f).length = res * res := by
  simp [gridNodes, List.length_flatMap, Function.comp_def, List.map_const',
    List.sum_replicate, smul_eq_mul]

theorem gridNodes_mem (res : ℕ) (f : ℕ → ℕ → ℚ × ℚ × ℚ) (v : ℚ × ℚ × ℚ)
    (hv : v ∈ gridNodes res f) : ∃ i j, i < res ∧ j < res ∧ v = f i j := by
  simp only [gridNodes, List.mem_flatMap, List.mem_map, List.mem_range] at hv
  obtain ⟨i, hi, j, hj, rfl⟩ := hv
  exact ⟨i, j, hi, hj, rfl⟩

theorem gridFaces_length (R : ℕ) :
    (gridFaces R).length = 2 * ((R - 1) * (R - 1)) := by
  simp [gridFaces, List.length_flatMap, Function.comp_def, List.map_const',
    List.sum_replicate, smul_eq_mul]
  ring

theorem gridFaces_mem (R : ℕ) (t : ℕ × ℕ × ℕ) (ht : t ∈ gridFaces R) :
    ∃ i j, i < R - 1 ∧ j < R - 1 ∧
      (t = (i * R + j, i * R + j + 1, i * R + j + R) ∨
       t = (i * R + j + 1, i * R + j + R + 1, i * R + j + R)) := by
  simp only [gridFaces, List.mem_flatMap, List.mem_range, List.mem_cons,
    List.mem_singleton, List.not_mem_nil, or_false] at ht
  obtain ⟨i, hi, j, hj, h⟩ := ht
  exact ⟨i, j, hi, hj, h⟩

theorem gridFaces_cell_mem (R i j : ℕ) (hi : i < R - 1) (hj : j < R - 1) :
    (i * R + j, i * R + j + 1, i * R + j + R) ∈ gridFaces R ∧
      (i * R + j + 1, i * R + j + R + 1, i * R + j + R) ∈ gridFaces R := by
  constructor <;>
    · refine List.mem_flatMap.mpr ⟨i, List.mem_range.mpr hi, ?_⟩
      refine List.mem_flatMap.mpr ⟨j, List.mem_range.mpr hj, ?_⟩
      simp

theorem face_index_bound {R i j : ℕ} (hR : 2 ≤ R) (hi : i < R - 1) (hj : j < R - 1) :
    i * R + j + R + 1 < R * R := by
  obtain ⟨r, rfl⟩ : ∃ r, R = r + 2 := ⟨R - 2, by omega⟩
  have hi2 : i ≤ r := by omega
  have hj2 : j ≤ r := by omega
  have hmul : i * (r + 2) ≤ r * (r + 2) := Nat.mul_le_mul_right _ hi2
  nlinarith

theorem griddataFill_getD (nodes : List (Option ℚ)) (fill : ℚ) (i : ℕ)
    (hi : i < nodes.length) :
    (griddataFill nodes fill).getD i 0 = (nodes.getD i none).getD fill := by
  unfold griddataFill
  rw [List.getD_eq_getElem _ _ (by simpa using hi), List.getElem_map,
    List.getD_eq_getElem _ _ hi]

theorem linspace_length (a b : ℚ) (n : ℕ) : (linspace a b n).length = n := by
  simp [linspace]

theorem linspace_getElem (a b : ℚ) (n i : ℕ) (h : i < (linspace a b n).length) :
    (linspace a b n)[i] = a + ((b - a) * (i : ℚ)) / ((n : ℚ) - 1) := by
  unfold linspace at h ⊢
  rw [List.getElem_map, List.getElem_range]

theorem slice_depths_length (zmin zmax : ℚ) (num : ℕ) :
    (slice_depths zmin zmax num).length = num := by
  simp [slice_depths, linspace_length]

theorem slice_depths_getD (zmin zmax : ℚ) (num k : ℕ) (hk : k < num) :
    (slice_depths zmin zmax num).getD k 0 =
      zmax + ((zmin - zmax) * ((k : ℚ) + 1)) / ((num : ℚ) + 1) := by
  unfold slice_depths
  have h1 : k < ((linspace zmax zmin (num + 2)).drop 1).dropLast.length := by
    simp [linspace_length]
    omega
  rw [List.getD_eq_getElem _ _ h1, List.getElem_dropLast, List.getElem_drop,
    linspace_getElem]
  push_cast
  ring

theorem foldl_min_le : ∀ (l : List ℚ) (a : ℚ), l.foldl min a ≤ a
  | [], a => le_refl a
  | b :: l, a => le_trans (foldl_min_le l (min a b)) (min_le_left a b)

theorem le_foldl_max : ∀ (l : List ℚ) (a : ℚ), a ≤ l.foldl max a
  | [], a => le_refl a
  | b :: l, a => le_trans (le_max_left a b) (le_foldl_max l (max a b))

theorem listMin_le_listMax : ∀ g : List ℚ, listMin g ≤ listMax g
  | [] => le_refl 0
  | a :: l => le_trans (foldl_min_le l a) (le_foldl_max l a)

theorem getD_map_rat (f : ℚ → ℚ) (l : List ℚ) (i : ℕ) (hi : i < l.length) :
    (l.map f).getD i 0 = f (l.getD i 0) := by
  rw [List.getD_eq_getElem _ _ (by simpa using hi), List.getElem_map,
    List.getD_eq_getElem _ _ hi]

theorem select_window_mem (pts : List Point) (d tol : ℚ) (p : Point) :
    p ∈ select_window pts d tol ↔ p ∈ pts ∧ |p.z - d| < tol := by
  simp [select_window, List.mem_filter]

/-! ## Claim theorems -/

/-- C1 (code bug, the code evaluated at the failing input): a successful filter
run with `threshold_percentile = 1/4` retains exactly the two points with
amplitudes 1 and 10; binning the survivors with `iso_bins = 4` gives them the
qcut labels 0 and 3, so `actual_bins = nunique = 2` while the label range goes
up to 3. The layer loop, which only visits levels `0..actual_bins-1`, then
emits one single point in total: the retained points are not partitioned among
the written iso-layers and the label-3 point is silently lost. -/
theorem iso_layer_partition_loss :
    filter_by_amplitude [⟨0, 0, 0, (1 : ℚ)/2⟩, ⟨1, 0, 0, 1⟩, ⟨2, 0, 0, 10⟩] (1/4) =
        Except.ok [⟨1, 0, 0, 1⟩, ⟨2, 0, 0, 10⟩] ∧
      iso_labels (abs_amp [⟨1, 0, 0, (1 : ℚ)⟩, ⟨2, 0, 0, 10⟩]) 4 = [0, 3] ∧
      actual_bins (abs_amp [⟨1, 0, 0, (1 : ℚ)⟩, ⟨2, 0, 0, 10⟩]) 4 = 2 ∧
      total_output_points [⟨1, 0, 0, (1 : ℚ)⟩, ⟨2, 0, 0, 10⟩] 4 1000000 = 1 := by
  with_unfolding_all decide

/-- C2: a layer whose population strictly exceeds the cap is downsampled to
exactly `max_points_per_layer` points, all drawn from the layer itself; the
sampler is a pure function of the layer and the hard-coded seed 42, so the
same input always yields the same selection. -/
theorem downsample_layer_spec (l : List Point) (maxPts : ℕ) (h : maxPts < l.length) :
    (downsample_layer l maxPts).length = maxPts ∧
      ∀ x ∈ downsample_layer l maxPts, x ∈ l := by
  constructor
  · unfold downsample_layer
    rw [if_pos h]
    unfold sample
    rw [sample_aux_length]
    simp [min_eq_left (le_of_lt h)]
  · intro x hx
    unfold downsample_layer at hx
    rw [if_pos h] at hx
    rcases sample_aux_mem _ _ _ _ _ hx with h1 | h1
    · exact h1
    · simp at h1

/-- C2 witness: a three-point layer capped at two points yields exactly two. -/
theorem downsample_layer_spec_witness :
    2 < ([⟨0, 0, 0, (1 : ℚ)⟩, ⟨1, 0, 0, 2⟩, ⟨2, 0, 0, 3⟩] : List Point).length ∧
      (downsample_layer [⟨0, 0, 0, (1 : ℚ)⟩, ⟨1, 0, 0, 2⟩, ⟨2, 0, 0, 3⟩] 2).length = 2 :=
  ⟨by decide, (downsample_layer_spec _ 2 (by decide)).1⟩

/-- C3: the amplitude filter thresholds at the linear-interpolation quantile of
the absolute amplitudes, keeps exactly the points whose absolute amplitude is
strictly above the threshold, and reports the operator-facing error message
(advising a lower percentile) when nothing survives instead of continuing. -/
theorem amplitude_filter_spec (pts : List Point) (percentile : ℚ) :
    amp_threshold pts percentile =
        quantileLinear (pts.map (fun p => |p.amp|)) percentile ∧
      (pts.filter (fun p => decide (amp_threshold pts percentile < |p.amp|)) = [] →
        filter_by_amplitude pts percentile =
          Except.error "No points after filtering! Try lowering the percentile.") ∧
      ∀ r, filter_by_amplitude pts percentile = Except.ok r →
        r ≠ [] ∧ ∀ p, p ∈ r ↔ p ∈ pts ∧ amp_threshold pts percentile < |p.amp| := by
  refine ⟨rfl, ?_, ?_⟩
  · intro h
    simp [filter_by_amplitude, h]
  · intro r hr
    unfold filter_by_amplitude at hr
    by_cases h :
      (pts.filter (fun p => decide (amp_threshold pts percentile < |p.amp|))).isEmpty
    · simp [h] at hr
    · simp only [h, Bool.false_eq_true, if_neg, ite_false, Except.ok.injEq] at hr
      subst hr
      refine ⟨by simpa [List.isEmpty_iff] using h, ?_⟩
      intro p
      simp [List.mem_filter, and_comm]

/-- C3 witness: a single point whose absolute amplitude equals the threshold is
not strictly above it, so the run ends in the reported empty-result error. -/
theorem amplitude_filter_spec_witness :
    ([⟨0, 0, 0, (5 : ℚ)⟩] : List Point).filter
        (fun p => decide (amp_threshold [⟨0, 0, 0, (5 : ℚ)⟩] (1/2) < |p.amp|)) = [] ∧
      filter_by_amplitude [⟨0, 0, 0, (5 : ℚ)⟩] (1/2) =
        Except.error "No points after filtering! Try lowering the percentile." :=
  ⟨by with_unfolding_all decide,
   (amplitude_filter_spec _ _).2.1 (by with_unfolding_all decide)⟩

/-- C4: coordinate normalization is exactly the three spec steps in the fixed
order invert-depth, center, rescale; it preserves the number of points;
centering never touches z; depth inversion never touches x or y; and when the
post-centering range does not exceed 50 the rescale leaves every point
unchanged. -/
theorem normalize_coords_spec (inv ctr : Bool) (pts : List Point) (i : ℕ)
    (hi : i < pts.length) :
    normalize_coords inv ctr pts =
        spec_rescale (spec_center ctr (spec_invert_depth inv pts)) ∧
      (normalize_coords inv ctr pts).length = pts.length ∧
      ((spec_center ctr pts).getD i default).z = (pts.getD i default).z ∧
      ((spec_invert_depth inv pts).getD i default).x = (pts.getD i default).x ∧
      ((spec_invert_depth inv pts).getD i default).y = (pts.getD i default).y ∧
      ∀ l : List Point,
        ¬ 50 < max (listMax (l.map (fun p => p.x)) - listMin (l.map (fun p => p.x)))
                   (listMax (l.map (fun p => p.y)) - listMin (l.map (fun p => p.y))) →
          spec_rescale l = l := by
  refine ⟨rfl, ?_, ?_, ?_, ?_, ?_⟩
  · show (spec_rescale (spec_center ctr (spec_invert_depth inv pts))).length = pts.length
    rw [spec_rescale_length, spec_center_length, spec_invert_depth_length]
  · cases ctr
    · rfl
    · rw [spec_center, if_pos rfl, getD_map_point _ _ _ hi]
  · cases inv
    · rfl
    · rw [spec_invert_depth, if_pos rfl, getD_map_point _ _ _ hi]
  · cases inv
    · rfl
    · rw [spec_invert_depth, if_pos rfl, getD_map_point _ _ _ hi]
  · intro l hl
    simp only [spec_rescale]
    rw [if_neg hl]

/-- C4 witness: the refinement instantiated on a concrete two-point set. -/
theorem normalize_coords_spec_witness :
    0 < ([⟨0, 0, 3, 1⟩, ⟨130, 0, -4, 2⟩] : List Point).length ∧
      normalize_coords true true [⟨0, 0, 3, 1⟩, ⟨130, 0, -4, 2⟩] =
        spec_rescale (spec_center true
          (spec_invert_depth true [⟨0, 0, 3, 1⟩, ⟨130, 0, -4, 2⟩])) :=
  ⟨by decide, (normalize_coords_spec true true _ 0 (by decide)).1⟩

/-- C5: a mesh assembled at grid resolution R has exactly R*R vertices and
2*(R-1)*(R-1) faces, every face index lies below the vertex count, each grid
cell (i, j) contributes its two triangles under row-major indexing
idx = i*R + j, and the depth-slice meshes share the same face lattice and
vertex count. -/
theorem mesh_shape_spec (R : ℕ) (hR : 2 ≤ R) (x y z amp : List ℚ)
    (iZ iA : Option (List (Option ℚ))) (gaussian : List ℚ → List ℚ) :
    (generate_surface_mesh x y z amp R iZ iA gaussian).vertices.length = R * R ∧
      (generate_surface_mesh x y z amp R iZ iA gaussian).faces.length =
        2 * ((R - 1) * (R - 1)) ∧
      (∀ f ∈ gridFaces R, f.1 < R * R ∧ f.2.1 < R * R ∧ f.2.2 < R * R) ∧
      (∀ i j, i < R - 1 → j < R - 1 →
        (i * R + j, i * R + j + 1, i * R + j + R) ∈ gridFaces R ∧
        (i * R + j + 1, i * R + j + R + 1, i * R + j + R) ∈ gridFaces R) ∧
      (generate_surface_mesh x y z amp R iZ iA gaussian).faces = gridFaces R ∧
      ∀ pts xi yi interp gsn tol d s,
        slice_at pts xi yi R interp gsn tol d = some s →
        s.vertices.length = R * R ∧ s.faces = gridFaces R := by
  refine ⟨gridNodes_length _ _, gridFaces_length _, ?_, ?_, rfl, ?_⟩
  · intro f hf
    obtain ⟨i, j, hi, hj, hc⟩ := gridFaces_mem R f hf
    have hb := face_index_bound hR hi hj
    rcases hc with rfl | rfl <;> dsimp only <;> exact ⟨by omega, by omega, by omega⟩
  · intro i j hi hj
    exact gridFaces_cell_mem R i j hi hj
  · intro pts xi yi interp gsn tol d s hs
    simp only [slice_at] at hs
    split at hs
    · exact absurd hs (by simp)
    · obtain rfl := Option.some.inj hs
      exact ⟨gridNodes_length _ _, rfl⟩

/-- C5 witness: the mesh invariants at the minimal resolution R = 2. -/
theorem mesh_shape_spec_witness :
    2 ≤ 2 ∧ (generate_surface_mesh [] [] [] [] 2 none none id).vertices.length = 2 * 2 :=
  ⟨by decide, (mesh_shape_spec 2 (by decide) [] [] [] [] none none id).1⟩

/-- C6 counterexample: when the depth-slice interpolation raises, the code
replaces the amplitude grid with zeros, not with a uniform grid of the field's
mean (here a window with amplitudes 2 and 4, mean 3). -/
theorem slice_fallback_counterexample :
    slice_amp_grid 2 id none = List.replicate 4 0 ∧
      slice_amp_grid 2 id none ≠ List.replicate 4 (mean [2, 4]) := by
  with_unfolding_all decide

/-- C8 counterexample: on the slice grid `[1, 3]` the code normalizes by
dividing by the maximum alone, giving `[1/3, 1]` instead of the claimed
min-max normalization `[0, 1]`, and the green channel of the slice color ramp
differs between the two vertices, so it is not a constant. -/
theorem slice_normalization_counterexample :
    slice_amp_norm [(1 : ℚ), 3] = [1/3, 1] ∧
      slice_amp_norm [(1 : ℚ), 3] ≠ spec_normalize [(1 : ℚ), 3] ∧
      (slice_color ((1 : ℚ)/3)).2.1 ≠ (slice_color (1 : ℚ)).2.1 := by
  with_unfolding_all decide

/-- C6 (amended): on interpolation success, lattice nodes outside the convex
hull receive the fill value — the field's mean for elevation and zero for
amplitude — while inside-hull nodes keep their interpolated value; when the
surface-path interpolation raises, both grids fall back to uniform grids of
the respective field means; when the depth-slice interpolation raises, the
amplitude grid falls back to all zeros; in both paths the failure is absorbed
(the grid functions are total) rather than propagated as a pipeline error. -/
theorem interpolation_fill_fallback_spec (z amp : List ℚ) (res : ℕ)
    (zn an : List (Option ℚ)) (i : ℕ) :
    (i < zn.length → zn.getD i none = none →
        (surface_grids_raw z amp res (some zn) (some an)).1.getD i 0 = mean z) ∧
      (i < an.length → an.getD i none = none →
        (surface_grids_raw z amp res (some zn) (some an)).2.getD i 0 = 0) ∧
      (∀ v : ℚ, i < zn.length → zn.getD i none = some v →
        (surface_grids_raw z amp res (some zn) (some an)).1.getD i 0 = v) ∧
      (∀ iZ iA : Option (List (Option ℚ)), iZ = none ∨ iA = none →
        surface_grids_raw z amp res iZ iA =
          (List.replicate (res * res) (mean z), List.replicate (res * res) (mean amp))) ∧
      ∀ gaussian : List ℚ → List ℚ,
        slice_amp_grid res gaussian none = List.replicate (res * res) 0 := by
  refine ⟨?_, ?_, ?_, ?_, fun _ => rfl⟩
  · intro h1 h2
    show (griddataFill zn (mean z)).getD i 0 = mean z
    rw [griddataFill_getD _ _ _ h1, h2]
    rfl
  · intro h1 h2
    show (griddataFill an 0).getD i 0 = 0
    rw [griddataFill_getD _ _ _ h1, h2]
    rfl
  · intro v h1 h2
    show (griddataFill zn (mean z)).getD i 0 = v
    rw [griddataFill_getD _ _ _ h1, h2]
    rfl
  · intro iZ iA h
    rcases h with rfl | rfl
    · cases iA <;> rfl
    · cases iZ <;> rfl

/-- C6 witness: an outside-hull elevation node receives the mean of the z
field. -/
theorem interpolation_fill_fallback_spec_witness :
    0 < ([none, some (7 : ℚ)] : List (Option ℚ)).length ∧
      ([none, some (7 : ℚ)] : List (Option ℚ)).getD 0 none = none ∧
      (surface_grids_raw [2, 4] [1, 3] 2 (some [none, some (7 : ℚ)])
          (some [none, some (7 : ℚ)])).1.getD 0 0 = mean [2, 4] :=
  ⟨by decide, rfl,
   (interpolation_fill_fallback_spec [2, 4] [1, 3] 2 _ _ 0).1 (by decide) rfl⟩

/-- C7: the slice generator produces exactly `numSlices` target depths, evenly
spaced by the closed form `zmax + (zmin - zmax) * (k + 1) / (numSlices + 1)`
and strictly between the z extremes; the tolerance is
`(zmax - zmin) / (numSlices * 2)`; a depth whose window holds fewer than 10
points yields no slice (and only then); every emitted slice sits entirely at
its target depth; and the generator is exactly this filterMap over the
depths. -/
theorem depth_slice_spec (zmin zmax : ℚ) (numSlices res : ℕ) (pts : List Point)
    (interp : List Point → Option (List (Option ℚ))) (gaussian : List ℚ → List ℚ) :
    (slice_depths zmin zmax numSlices).length = numSlices ∧
      (∀ k, k < numSlices → (slice_depths zmin zmax numSlices).getD k 0 =
        zmax + ((zmin - zmax) * ((k : ℚ) + 1)) / ((numSlices : ℚ) + 1)) ∧
      (zmin < zmax → ∀ k, k < numSlices →
        zmin < (slice_depths zmin zmax numSlices).getD k 0 ∧
        (slice_depths zmin zmax numSlices).getD k 0 < zmax) ∧
      depth_tolerance zmin zmax numSlices = (zmax - zmin) / ((numSlices : ℚ) * 2) ∧
      (∀ xi yi tol d, slice_at pts xi yi res interp gaussian tol d = none ↔
        (select_window pts d tol).length < 10) ∧
      (∀ xi yi tol d s, slice_at pts xi yi res interp gaussian tol d = some s →
        s.depth = d ∧ ∀ v ∈ s.vertices, v.2.2 = d) ∧
      generate_depth_slices pts numSlices res interp gaussian =
        (slice_depths (listMin (pts.map (fun p => p.z)))
            (listMax (pts.map (fun p => p.z))) numSlices).filterMap
          (slice_at pts
            (linspace (listMin (pts.map (fun p => p.x)))
              (listMax (pts.map (fun p => p.x))) res)
            (linspace (listMin (pts.map (fun p => p.y)))
              (listMax (pts.map (fun p => p.y))) res)
            res interp gaussian
            (depth_tolerance (listMin (pts.map (fun p => p.z)))
              (listMax (pts.map (fun p => p.z))) numSlices)) := by
  refine ⟨slice_depths_length _ _ _, fun k hk => slice_depths_getD _ _ _ _ hk,
    ?_, rfl, ?_, ?_, rfl⟩
  · intro hz k hk
    rw [slice_depths_getD _ _ _ _ hk]
    have hn : (0 : ℚ) < (numSlices : ℚ) + 1 := by positivity
    have hk1 : (0 : ℚ) < (k : ℚ) + 1 := by positivity
    have hkn : (k : ℚ) < (numSlices : ℚ) := by exact_mod_cast hk
    constructor
    · have key : zmax + ((zmin - zmax) * ((k : ℚ) + 1)) / ((numSlices : ℚ) + 1) - zmin =
          ((zmax - zmin) * ((numSlices : ℚ) - (k : ℚ))) / ((numSlices : ℚ) + 1) := by
        field_simp
        ring
      have hpos : 0 < ((zmax - zmin) * ((numSlices : ℚ) - (k : ℚ))) / ((numSlices : ℚ) + 1) :=
        div_pos (mul_pos (by linarith) (by linarith)) hn
      linarith
    · have hneg : ((zmin - zmax) * ((k : ℚ) + 1)) / ((numSlices : ℚ) + 1) < 0 :=
        div_neg_of_neg_of_pos (mul_neg_of_neg_of_pos (by linarith) hk1) hn
      linarith
  · intro xi yi tol d
    by_cases h : (select_window pts d tol).length < 10 <;> simp [slice_at, h]
  · intro xi yi tol d s hs
    simp only [slice_at] at hs
    split at hs
    · exact absurd hs (by simp)
    · obtain rfl := Option.some.inj hs
      refine ⟨rfl, ?_⟩
      intro v hv
      obtain ⟨i, j, hi, hj, rfl⟩ := gridNodes_mem _ _ _ hv
      rfl

/-- C7 witness: with z spanning [0, 6] and two slices, the first target depth
lies strictly between the extremes. -/
theorem depth_slice_spec_witness :
    (0 : ℚ) < 6 ∧ (0 : ℚ) < (slice_depths 0 6 2).getD 0 0 ∧
      (slice_depths 0 6 2).getD 0 0 < 6 :=
  ⟨by norm_num,
   ((depth_slice_spec 0 6 2 2 [] (fun _ => none) id).2.2.1 (by norm_num) 0
     (by norm_num)).1,
   ((depth_slice_spec 0 6 2 2 [] (fun _ => none) id).2.2.1 (by norm_num) 0
     (by norm_num)).2⟩

/-- C9 counterexample: an IOError while writing the surface OBJ mesh is caught
by the surface-generation block, and with all layer writes succeeding the run
finishes with status completed while the surface artifact is missing — the
failure is not fatal. -/
theorem mesh_write_failure_counterexample :
    process_run true true 0 (WriteOutcome.ioFail "disk full") [] [WriteOutcome.ok] =
      (RunStatus.completed, []) := by
  with_unfolding_all decide

/-- C8 (amended): the whole-surface mesh normalizes its scalar grid by the
spec's min-max formula (all-zero when max equals min) and colors vertices with
constant green 1/5 and blue = 1 - red; the depth-slice meshes instead divide
by the grid maximum alone (all-zero when it is not positive) and their green
channel is 3/10 * (1 - red), varying with the scalar, with blue = 1 - red. -/
theorem mesh_coloring_spec (g : List ℚ) (i : ℕ) (hi : i < g.length) :
    surface_amp_norm g = spec_normalize g ∧
      (∀ x y z amp res iZ iA gaussian,
        ∀ c ∈ (generate_surface_mesh x y z amp res iZ iA gaussian).colors,
          c.2.1 = 1/5 ∧ c.2.2 = 1 - c.1) ∧
      (slice_amp_norm g).getD i 0 =
        (if 0 < listMax g then g.getD i 0 / listMax g else 0) ∧
      ∀ pts xi yi res interp gaussian tol d s,
        slice_at pts xi yi res interp gaussian tol d = some s →
        ∀ c ∈ s.colors, c.2.1 = (3/10) * (1 - c.1) ∧ c.2.2 = 1 - c.1 := by
  refine ⟨?_, ?_, ?_, ?_⟩
  · simp only [surface_amp_norm, spec_normalize]
    rcases lt_or_eq_of_le (listMin_le_listMax g) with h | h
    · rw [if_pos h, if_neg (ne_of_gt h)]
    · rw [if_neg (by rw [h]; exact lt_irrefl _), if_pos h.symm]
  · intro x y z amp res iZ iA gaussian c hc
    obtain ⟨a, b, ha, hb, rfl⟩ := gridNodes_mem _ _ _ hc
    exact ⟨rfl, rfl⟩
  · simp only [slice_amp_norm]
    split
    · rw [getD_map_rat _ _ _ hi]
    · rw [getD_map_rat _ _ _ hi]
  · intro pts xi yi res interp gaussian tol d s hs
    simp only [slice_at] at hs
    split at hs
    · exact absurd hs (by simp)
    · obtain rfl := Option.some.inj hs
      intro c hc
      obtain ⟨a, b, ha, hb, rfl⟩ := gridNodes_mem _ _ _ hc
      exact ⟨rfl, rfl⟩

/-- C8 witness: the slice normalization formula evaluated on the grid [1, 3]. -/
theorem mesh_coloring_spec_witness :
    0 < ([(1 : ℚ), 3] : List ℚ).length ∧
      (slice_amp_norm [(1 : ℚ), 3]).getD 0 0 =
        (if 0 < listMax [(1 : ℚ), 3] then
          ([(1 : ℚ), 3]).getD 0 0 / listMax [(1 : ℚ), 3] else 0) :=
  ⟨by decide, (mesh_coloring_spec [(1 : ℚ), 3] 0 (by decide)).2.2.1⟩

/-- C9 (amended): a PLY point-cloud write failure is fatal — the run ends in an
error status carrying the IOError message, and the run completes only when
every layer write succeeds — while the final status never depends on the
surface or slice OBJ write outcomes, whose failures are absorbed inside the
surface-generation block. -/
theorem serialization_failure_spec (layerWrites : List WriteOutcome)
    (genS genA : Bool) (ds : ℕ) (sw sw2 : WriteOutcome)
    (sls sls2 : List WriteOutcome) :
    ((∀ w ∈ layerWrites, w = WriteOutcome.ok) ↔
        run_status layerWrites = RunStatus.completed) ∧
      (∀ m, run_status layerWrites = RunStatus.error m →
        ∃ msg, m = "Error: " ++ msg ∧ WriteOutcome.ioFail msg ∈ layerWrites) ∧
      (process_run genS genA ds sw sls layerWrites).1 =
        (process_run genS genA ds sw2 sls2 layerWrites).1 := by
  refine ⟨⟨?_, ?_⟩, ?_, rfl⟩
  · intro h
    unfold run_status
    have hnone : layerWrites.findSome? WriteOutcome.failMsg = none := by
      rw [List.findSome?_eq_none_iff]
      intro w hw
      rw [h w hw]
      rfl
    rw [hnone]
  · intro h w hw
    unfold run_status at h
    cases heq : layerWrites.findSome? WriteOutcome.failMsg with
    | some m => rw [heq] at h; exact absurd h (by simp)
    | none =>
      have := List.findSome?_eq_none_iff.mp heq w hw
      cases w with
      | ok => rfl
      | ioFail m => exact absurd this (by simp [WriteOutcome.failMsg])
  · intro m h
    unfold run_status at h
    cases heq : layerWrites.findSome? WriteOutcome.failMsg with
    | none => rw [heq] at h; exact absurd h (by simp)
    | some msg =>
      rw [heq] at h
      obtain ⟨w, hw, hmsg⟩ := List.exists_of_findSome?_eq_some heq
      refine ⟨msg, by injection h with h2; exact h2.symm, ?_⟩
      cases w with
      | ok => exact absurd hmsg (by simp [WriteOutcome.failMsg])
      | ioFail m2 =>
        have : m2 = msg := by
          simpa [WriteOutcome.failMsg] using hmsg
        rw [this] at hw
        exact hw

/-- C9 witness: a run whose single layer write succeeds completes. -/
theorem serialization_failure_spec_witness :
    (∀ w ∈ ([WriteOutcome.ok] : List WriteOutcome), w = WriteOutcome.ok) ∧
      run_status [WriteOutcome.ok] = RunStatus.completed :=
  ⟨by decide,
   (serialization_failure_spec [WriteOutcome.ok] true true 0 WriteOutcome.ok
     WriteOutcome.ok [] []).1.mp (by decide)⟩

/-- C10: each slice window has full width `(zmax - zmin) / numSlices`, which is
strictly wider than the spacing `(zmax - zmin) / (numSlices + 1)` between
consecutive target depths, the depths descend from near zmax toward zmin, and
any point sitting at the midpoint of two consecutive depths is selected into
both windows — the slices are not a partition of the point set. -/
theorem slice_window_overlap_spec (zmin zmax : ℚ) (num : ℕ) (pts : List Point)
    (hz : zmin < zmax) (hn : 2 ≤ num) :
    2 * depth_tolerance zmin zmax num = (zmax - zmin) / (num : ℚ) ∧
      (zmax - zmin) / ((num : ℚ) + 1) < (zmax - zmin) / (num : ℚ) ∧
      (∀ k, k + 1 < num →
        (slice_depths zmin zmax num).getD k 0 -
            (slice_depths zmin zmax num).getD (k + 1) 0 =
          (zmax - zmin) / ((num : ℚ) + 1)) ∧
      (∀ k, k + 1 < num →
        (slice_depths zmin zmax num).getD (k + 1) 0 <
          (slice_depths zmin zmax num).getD k 0) ∧
      ∀ k p, k + 1 < num → p ∈ pts →
        p.z = ((slice_depths zmin zmax num).getD k 0 +
            (slice_depths zmin zmax num).getD (k + 1) 0) / 2 →
        p ∈ select_window pts ((slice_depths zmin zmax num).getD k 0)
            (depth_tolerance zmin zmax num) ∧
        p ∈ select_window pts ((slice_depths zmin zmax num).getD (k + 1) 0)
            (depth_tolerance zmin zmax num) := by
  have hn0 : (0 : ℚ) < (num : ℚ) := by exact_mod_cast (by omega : 0 < num)
  have hn1 : (0 : ℚ) < (num : ℚ) + 1 := by linarith
  have hD : (0 : ℚ) < zmax - zmin := by linarith
  have spacing : ∀ k, k + 1 < num →
      (slice_depths zmin zmax num).getD k 0 -
          (slice_depths zmin zmax num).getD (k + 1) 0 =
        (zmax - zmin) / ((num : ℚ) + 1) := by
    intro k hk
    rw [slice_depths_getD _ _ _ _ (by omega), slice_depths_getD _ _ _ _ hk]
    push_cast
    field_simp
    ring
  have hS : (0 : ℚ) < (zmax - zmin) / ((num : ℚ) + 1) := div_pos hD hn1
  have htolpos : (0 : ℚ) < depth_tolerance zmin zmax num := by
    unfold depth_tolerance
    positivity
  have htol : (zmax - zmin) / ((num : ℚ) + 1) / 2 < depth_tolerance zmin zmax num := by
    unfold depth_tolerance
    rw [div_div]
    exact div_lt_div_of_pos_left hD (by positivity) (by linarith)
  refine ⟨?_, ?_, spacing, ?_, ?_⟩
  · unfold depth_tolerance
    field_simp
    ring
  · exact div_lt_div_of_pos_left hD hn0 (by linarith)
  · intro k hk
    have := spacing k hk
    linarith
  · intro k p hk hp hmid
    have hsp := spacing k hk
    constructor <;>
      · rw [select_window_mem]
        refine ⟨hp, ?_⟩
        rw [abs_sub_lt_iff]
        constructor <;> linarith

/-- C10 witness: with z spanning [0, 6] and two slices, the full window width
equals (6 - 0) / 2. -/
theorem slice_window_overlap_spec_witness :
    (0 : ℚ) < 6 ∧ 2 ≤ 2 ∧ 2 * depth_tolerance 0 6 2 = (6 - 0) / (2 : ℚ) :=
  ⟨by norm_num, by norm_num,
   (slice_window_overlap_spec 0 6 2 [] (by norm_num) (by norm_num)).1⟩

end GPR
